import Mathlib

/-!
Shallow embedding of `src/profile-building/pull_schema.py` (tuya-cloudcutter).

Bytes are modelled as `Nat` (values < 256), byte strings as `List Nat`.
Python library primitives that the script calls (`hashlib.md5`, `hashlib.sha256`,
`Cryptodome` AES, `json`, UTF-8 decoding) are either implemented concretely
(MD5, PKCS#7 padding, hex encoding) or passed as function parameters where the
script treats them as opaque (AES block cipher, SHA-256, JSON parse).
-/

namespace PullSchema

/-- 2^32, the word modulus for MD5 arithmetic. -/
def M32 : Nat := 4294967296

/-- Left-rotate a 32-bit word by `n` bits (0 < n < 32). -/
def rotl32 (x n : Nat) : Nat := (x * 2 ^ n + x / 2 ^ (32 - n)) % M32

/-- The 64 MD5 sine-derived constants (RFC 1321). -/
def md5K : List Nat :=
  [0xd76aa478, 0xe8c7b756, 0x242070db, 0xc1bdceee,
   0xf57c0faf, 0x4787c62a, 0xa8304613, 0xfd469501,
   0x698098d8, 0x8b44f7af, 0xffff5bb1, 0x895cd7be,
   0x6b901122, 0xfd987193, 0xa679438e, 0x49b40821,
   0xf61e2562, 0xc040b340, 0x265e5a51, 0xe9b6c7aa,
   0xd62f105d, 0x02441453, 0xd8a1e681, 0xe7d3fbc8,
   0x21e1cde6, 0xc33707d6, 0xf4d50d87, 0x455a14ed,
   0xa9e3e905, 0xfcefa3f8, 0x676f02d9, 0x8d2a4c8a,
   0xfffa3942, 0x8771f681, 0x6d9d6122, 0xfde5380c,
   0xa4beea44, 0x4bdecfa9, 0xf6bb4b60, 0xbebfbc70,
   0x289b7ec6, 0xeaa127fa, 0xd4ef3085, 0x04881d05,
   0xd9d4d039, 0xe6db99e5, 0x1fa27cf8, 0xc4ac5665,
   0xf4292244, 0x432aff97, 0xab9423a7, 0xfc93a039,
   0x655b59c3, 0x8f0ccc92, 0xffeff47d, 0x85845dd1,
   0x6fa87e4f, 0xfe2ce6e0, 0xa3014314, 0x4e0811a1,
   0xf7537e82, 0xbd3af235, 0x2ad7d2bb, 0xeb86d391]

/-- The 64 MD5 per-round left-rotation amounts (RFC 1321). -/
def md5S : List Nat :=
  [7, 12, 17, 22, 7, 12, 17, 22, 7, 12, 17, 22, 7, 12, 17, 22,
   5, 9, 14, 20, 5, 9, 14, 20, 5, 9, 14, 20, 5, 9, 14, 20,
   4, 11, 16, 23, 4, 11, 16, 23, 4, 11, 16, 23, 4, 11, 16, 23,
   6, 10, 15, 21, 6, 10, 15, 21, 6, 10, 15, 21, 6, 10, 15, 21]

/-- The MD5 nonlinear mixing function for round `i` (complement is within 32 bits). -/
def md5F (i b c d : Nat) : Nat :=
  if i < 16 then Nat.lor (Nat.land b c) (Nat.land (M32 - 1 - b) d)
  else if i < 32 then Nat.lor (Nat.land d b) (Nat.land (M32 - 1 - d) c)
  else if i < 48 then Nat.xor (Nat.xor b c) d
  else Nat.xor c (Nat.lor b (M32 - 1 - d))

/-- The MD5 message-word schedule for round `i`. -/
def md5g (i : Nat) : Nat :=
  if i < 16 then i
  else if i < 32 then (5 * i + 1) % 16
  else if i < 48 then (3 * i + 5) % 16
  else (7 * i) % 16

/-- Little-endian 32-bit word from the first four bytes of a list. -/
def le4 : List Nat → Nat
  | b0 :: b1 :: b2 :: b3 :: _ => b0 + b1 * 256 + b2 * 65536 + b3 * 16777216
  | [b0, b1, b2] => b0 + b1 * 256 + b2 * 65536
  | [b0, b1] => b0 + b1 * 256
  | [b0] => b0
  | [] => 0

/-- Little-endian byte decomposition of a 32-bit word. -/
def le4bytes (n : Nat) : List Nat :=
  [n % 256, n / 256 % 256, n / 65536 % 256, n / 16777216 % 256]

/-- Little-endian byte decomposition of a 64-bit word. -/
def le8bytes (n : Nat) : List Nat :=
  (List.range 8).map fun i => n / 256 ^ i % 256

/-- One MD5 round: state `(A, B, C, D)`, message accessor `M`, round index `i`. -/
def md5Round (M : Nat → Nat) (st : Nat × Nat × Nat × Nat) (i : Nat) :
    Nat × Nat × Nat × Nat :=
  let (A, B, C, D) := st
  let F := (md5F i B C D + A + md5K.getD i 0 + M (md5g i)) % M32
  (D, (B + rotl32 F (md5S.getD i 0)) % M32, B, C)

/-- Process one 64-byte chunk, updating the running MD5 state. -/
def md5Chunk (st : Nat × Nat × Nat × Nat) (chunk : List Nat) :
    Nat × Nat × Nat × Nat :=
  let M := fun j => le4 (chunk.drop (4 * j))
  let (A, B, C, D) := (List.range 64).foldl (md5Round M) st
  ((st.1 + A) % M32, (st.2.1 + B) % M32, (st.2.2.1 + C) % M32, (st.2.2.2 + D) % M32)

/-- MD5 padding: append 0x80, zero bytes to reach 56 mod 64, then the
64-bit little-endian bit length. -/
def md5Pad (msg : List Nat) : List Nat :=
  msg ++ [0x80] ++ List.replicate ((119 - msg.length % 64) % 64) 0
      ++ le8bytes (msg.length * 8 % 2 ^ 64)

/-- MD5 digest (16 bytes) of a byte string, per RFC 1321; models
Python `hashlib.md5(data).digest()`. -/
def md5 (msg : List Nat) : List Nat :=
  let chunks := List.toChunks 64 (md5Pad msg)
  let st := chunks.foldl md5Chunk (0x67452301, 0xefcdab89, 0x98badcfe, 0x10325476)
  le4bytes st.1 ++ le4bytes st.2.1 ++ le4bytes st.2.2.1 ++ le4bytes st.2.2.2

/-- Lowercase hexadecimal digit for a nibble. -/
def hexDigitL (n : Nat) : Char := ("0123456789abcdef".data).getD n '0'

/-- Uppercase hexadecimal digit for a nibble. -/
def hexDigitU (n : Nat) : Char := ("0123456789ABCDEF".data).getD n '0'

/-- Lowercase hex rendering of a byte string; models Python `.hexdigest()`
output formatting. -/
def hexLower (bs : List Nat) : List Char :=
  bs.foldr (fun b acc => hexDigitL (b / 16) :: hexDigitL (b % 16) :: acc) []

/-- Uppercase hex rendering of a byte string; models Python `bytes.hex().upper()`. -/
def hexUpper (bs : List Nat) : List Char :=
  bs.foldr (fun b acc => hexDigitU (b / 16) :: hexDigitU (b % 16) :: acc) []

/-- UTF-8 encoding of one character, as Python `str.encode("utf-8")` does. -/
def utf8EncodeChar (c : Char) : List Nat :=
  let n := c.toNat
  if n < 0x80 then [n]
  else if n < 0x800 then [0xC0 + n / 64, 0x80 + n % 64]
  else if n < 0x10000 then [0xE0 + n / 4096, 0x80 + n / 64 % 64, 0x80 + n % 64]
  else [0xF0 + n / 262144, 0x80 + n / 4096 % 64, 0x80 + n / 64 % 64, 0x80 + n % 64]

/-- UTF-8 encoding of a string to bytes; models Python `str.encode("utf-8")`. -/
def strBytes (s : String) : List Nat :=
  s.data.foldr (fun c acc => utf8EncodeChar c ++ acc) []

/-- Lowercase hex MD5 digest of the UTF-8 bytes of a string; models Python
`md5(s.encode("utf-8")).hexdigest()`. -/
def md5hex (s : String) : String :=
  String.mk (hexLower (md5 (strBytes s)))

/-- PKCS#7 padding to a 16-byte block size; models
`Cryptodome.Util.Padding.pad(data, block_size=16)`. -/
def pkcs7pad (data : List Nat) : List Nat :=
  let n := 16 - data.length % 16
  data ++ List.replicate n n

/-- PKCS#7 unpadding with validity checks; models
`Cryptodome.Util.Padding.unpad(data, block_size=16)`, which raises on invalid
padding (here: `none`). -/
def pkcs7unpad (data : List Nat) : Option (List Nat) :=
  match data.getLast? with
  | none => none
  | some n =>
    if n = 0 ∨ 16 < n ∨ data.length < n then none
    else if data.drop (data.length - n) = List.replicate n n then
      some (data.take (data.length - n))
    else none

/-- Value of one hex character (either case), `none` for a non-hex character. -/
def charToNibble (c : Char) : Option Nat :=
  if c = '0' then some 0 else if c = '1' then some 1
  else if c = '2' then some 2 else if c = '3' then some 3
  else if c = '4' then some 4 else if c = '5' then some 5
  else if c = '6' then some 6 else if c = '7' then some 7
  else if c = '8' then some 8 else if c = '9' then some 9
  else if c = 'A' ∨ c = 'a' then some 10 else if c = 'B' ∨ c = 'b' then some 11
  else if c = 'C' ∨ c = 'c' then some 12 else if c = 'D' ∨ c = 'd' then some 13
  else if c = 'E' ∨ c = 'e' then some 14 else if c = 'F' ∨ c = 'f' then some 15
  else none

/-- Hex-decode a character list to bytes, two characters per byte; models
Python `bytes.fromhex`. -/
def hexDecodeL : List Char → Option (List Nat)
  | [] => some []
  | [_] => none
  | c1 :: c2 :: rest =>
    match charToNibble c1, charToNibble c2, hexDecodeL rest with
    | some hi, some lo, some bs => some ((hi * 16 + lo) :: bs)
    | _, _, _ => none

/-!
## TuyaAPIConnection (payload codec and PSK identity provider)

The Python class holds `authkey`, `uuid` (UTF-8 byte strings) and a mutable
`psk`.  The AES primitives come from `Cryptodome`; they are passed here as
function parameters `aesEnc`/`aesDec` (ECB, keyed by the first 16 bytes of
`authkey`) and `aesCbcEnc` (CBC with explicit key and iv).  `random.randbytes`
is passed as the concrete byte list it returned, and `hashlib.sha256` as a
function parameter.
-/

/-- Source `_encrypt_data` (pull_schema.py lines 72-77) with the external
pieces made explicit: `jsonBytes` is the UTF-8 bytes of
`json.dumps(data, separators=(",",":"))` (the compact JSON serialization) and
`aesEnc key buf` is `AES.new(key, AES.MODE_ECB).encrypt(buf)`.
Returns the literal request body string `data=<uppercase hex>`. -/
def encrypt_data (aesEnc : List Nat → List Nat → List Nat) (authkey : List Nat)
    (jsonBytes : List Nat) : String :=
  let padded := pkcs7pad jsonBytes
  let encrypted := aesEnc (authkey.take 16) padded
  String.mk ("data=".data ++ hexUpper encrypted)

/-- Source `_decrypt_data` (lines 79-81): ECB-decrypt with the first 16 bytes
of `authkey` (`_build_cipher`, lines 83-84), then PKCS#7-unpad; unpadding can
fail (`none`). -/
def decrypt_data (aesDec : List Nat → List Nat → List Nat) (authkey : List Nat)
    (data : List Nat) : Option (List Nat) :=
  pkcs7unpad (aesDec (authkey.take 16) data)

/-- Python tuple comparison `(k1,v1) <= (k2,v2)` on string pairs, as used by
`sorted(list(params.items()))`. -/
def pairLe (a b : String × String) : Bool :=
  decide (a.1 < b.1 ∨ (a.1 = b.1 ∧ a.2 ≤ b.2))

/-- `"&".join(f"{k}={v}" for k, v in ps)`. -/
def joinAmp (ps : List (String × String)) : String :=
  String.intercalate "&" (ps.map fun kv => kv.1 ++ "=" ++ kv.2)

/-- `s.replace("&", "||")`. -/
def replaceAmp (s : String) : String :=
  String.mk (s.data.foldr (fun c acc => if c = '&' then '|' :: '|' :: acc else c :: acc) [])

/-- Source `_build_querystring` (lines 86-95): sort the items, join with `&`,
sign with MD5 over the `&`→`||` rewrite plus `||<authkey>`, append
`&sign=<hex digest>`, prefix `?`. -/
def build_querystring (authkey : String) (params : List (String × String)) : String :=
  let sorted_params := params.mergeSort pairLe
  let query := joinAmp sorted_params
  let signature_body := replaceAmp query ++ "||" ++ authkey
  let signature := md5hex signature_body
  "?" ++ (query ++ "&sign=" ++ signature)

/-- `bytes.replace(b'\x00', b'?')`: substitute every NUL byte with ASCII `?` (63). -/
def nulSub (bs : List Nat) : List Nat :=
  bs.map fun b => if b = 0 then 63 else b

/-- The AES key input of `_psk_id_v1` (line 131): `hint[-16:]`, i.e. the last
16 bytes of the hint, or the whole hint when it is shorter. -/
def v1KeyInput (hint : List Nat) : List Nat :=
  hint.drop (hint.length - 16)

/-- Source `_psk_id_v1` (lines 124-134).  `aesCbcEnc key iv buf` models
`AES.new(key, AES.MODE_CBC, iv).encrypt(buf)`; `rand_data` is the 16-byte
result of `random.randbytes(0x10)`.  Returns `(psk, init_id)` — note the
source returns the whole `init_id`, version byte included. -/
def psk_id_v1 (aesCbcEnc : List Nat → List Nat → List Nat → List Nat)
    (authkey uuid rand_data hint : List Nat) : List Nat × List Nat :=
  let authkey_hash := md5 authkey
  let uuid_hash := md5 uuid
  let init_id := nulSub (1 :: (rand_data ++ uuid_hash ++ [95] ++ authkey_hash))
  let iv := md5 (init_id.drop 1)
  let key := md5 (v1KeyInput hint)
  let psk := aesCbcEnc key iv ((init_id.drop 1).take 32)
  (psk, init_id)

/-- Source `_psk_id_v2` (lines 136-140).  `sha256` is the external
`hashlib.sha256(...).digest()`; `psk` is the already-held secret.  Returns
`(psk, init_id.replace(b'\x00', b'?'))` — again the whole `init_id`. -/
def psk_id_v2 (sha256 : List Nat → List Nat) (psk uuid rand_data : List Nat) :
    List Nat × List Nat :=
  let uuid_hash := sha256 uuid
  let init_id := 2 :: (rand_data ++ uuid_hash)
  (psk, nulSub init_id)

/-!
## Activation Orchestrator (`run`, lines 225-298) and transport (`request`)
-/

/-- A decoded activation response, as the orchestrator reads it: the `success`
flag, the `errorCode` read on failure, and the `result` payload fields read on
success. -/
structure Resp where
  success : Bool
  errorCode : String
  schemaId : String
  schema : String
deriving DecidableEq, Repr

/-- What one call of `TuyaAPIConnection.request` runs into on the wire, at the
granularity the claims speak about.  The four failure constructors cover every
exception source inside the `try` block of lines 55-64. -/
inductive RequestEvent
  | sockError   -- socket connect/send/recv failure
  | badFraming  -- no blank-line boundary: `datas.split(b"\r\n\r\n")[1]` raises
  | badJson     -- `json.loads` failure on the envelope or the plaintext
  | badDecode   -- base64, AES-decrypt, unpad or UTF-8 failure
  | good (r : Resp)
deriving DecidableEq

/-- Source `request` (lines 44-69): the single `except Exception` handler
catches every failure kind and calls `sys.exit(3)`, terminating the whole
process; only a fully decoded response is returned. -/
def request : RequestEvent → Except Nat Resp
  | .good r => .ok r
  | _ => .error 3

/-- Source `build_params` (lines 158-167); the `t` and `et` values are Python
ints, rendered here as the strings they format to. -/
def build_params (epoch_time : Nat) (uuid : String) : List (String × String) :=
  [("a", "tuya.device.active"),
   ("t", toString epoch_time),
   ("uuid", uuid),
   ("v", "4.4"),
   ("et", "1")]

/-- Source `build_data` (lines 169-182).  Whatever key is passed (product or
firmware) is serialized under the field name `productKey`; `str(is_fk).lower()`
renders the flag as `true`/`false` inside the `options` JSON fragment. -/
def build_data (epoch_time : Nat) (token product_key software_version : String)
    (baseline_version cad_version cd_version protocol_version : String)
    (is_fk : Bool) : List (String × String) :=
  [("token", token),
   ("productKey", product_key),
   ("softVer", software_version),
   ("protocolVer", protocol_version),
   ("baselineVer", baseline_version),
   ("options", "\x7b\"isFK\":" ++ (if is_fk then "true" else "false") ++ "\x7d"),
   ("cadVer", cad_version),
   ("cdVer", cd_version),
   ("t", toString epoch_time)]

/-- Source lines 248-258: derive the region from the token's first two
characters, or `sys.exit(4)`.  Line 255 of the source reads `region == "cn"`
— a comparison whose result is discarded, not an assignment — so on an
`AY` token `region` keeps the value `"AY"` and the run proceeds with it. -/
def regionStep (token : String) : Except Nat String :=
  let region := token.take 2
  if region = "AZ" then .ok "us"
  else if region = "EU" then .ok "eu"
  else if region = "AY" then .ok region
  else .error 4

/-- Source line 270 (name kept verbatim, typo included). -/
def responseCodesToContinueAter : List String :=
  ["FIRMWARE_NOT_MATCH", "APP_PRODUCT_UNSUPPORT", "NOT_EXISTS"]

/-- The non-key arguments `run` passes unchanged to every `build_data` call. -/
structure RunCfg where
  epoch : Nat
  token : String
  software_version : String
  baseline_version : String
  cad_version : String
  cd_version : String
  protocol_version : String
deriving DecidableEq, Repr

/-- One network attempt as issued by `run`: which key string was presented,
the `is_fk` flag, and the request body mapping built for it. -/
structure AttemptRec where
  key : String
  is_fk : Bool
  data : List (String × String)
deriving DecidableEq, Repr

/-- The attempt `run` issues for `key` with flag `fk`. -/
def attempt (cfg : RunCfg) (key : String) (fk : Bool) : AttemptRec :=
  ⟨key, fk, build_data cfg.epoch cfg.token key cfg.software_version
    cfg.baseline_version cfg.cad_version cfg.cd_version cfg.protocol_version fk⟩

/-- How a `run` invocation ends, from line 272 on. -/
inductive RunOutcome
  | exited (code : Nat)                     -- sys.exit(code) inside `request`
  | wroteSchema (schemaId schema : String)  -- success branch, lines 288-294
  | expireMsg                               -- EXPIRE branch, lines 295-296
  | otherMsg (r : Resp)                     -- final else, line 298
  | pyNoneError                             -- line 288 with `response` still None
deriving DecidableEq, Repr

/-- Product-key phase of `run` (lines 272-278).  `oracle i` is what the `i`-th
network attempt of this run encounters.  Returns either the early exit
(with the attempts made) or the response so far, the attempt trace, and the
index of the next attempt. -/
def pkPhase (cfg : RunCfg) (product_key : Option String)
    (oracle : Nat → RequestEvent) :
    Except (RunOutcome × List AttemptRec) (Option Resp × List AttemptRec × Nat) :=
  match product_key with
  | none => .ok (none, [], 0)
  | some pk =>
    let a0 := attempt cfg pk false
    match request (oracle 0) with
    | .error c => .error (.exited c, [a0])
    | .ok r0 =>
      if r0.success = false ∧ r0.errorCode ∈ responseCodesToContinueAter then
        let a1 := attempt cfg pk true
        match request (oracle 1) with
        | .error c => .error (.exited c, [a0, a1])
        | .ok r1 => .ok (some r1, [a0, a1], 2)
      else .ok (some r0, [a0], 1)

/-- Firmware-key phase of `run` (lines 280-286), entered when the response so
far is absent or a non-`EXPIRE` failure and a firmware key is present. -/
def fkPhase (cfg : RunCfg) (firmware_key : Option String)
    (oracle : Nat → RequestEvent)
    (st : Option Resp × List AttemptRec × Nat) :
    Except (RunOutcome × List AttemptRec) (Option Resp × List AttemptRec) :=
  let (resp, trace, i) := st
  let proceed : Bool :=
    match resp with
    | none => true
    | some r => !r.success && !(r.errorCode == "EXPIRE")
  match firmware_key with
  | none => .ok (resp, trace)
  | some fk =>
    if proceed then
      let a2 := attempt cfg fk true
      match request (oracle i) with
      | .error c => .error (.exited c, trace ++ [a2])
      | .ok r2 =>
        if r2.success = false ∧ r2.errorCode ∈ responseCodesToContinueAter then
          let a3 := attempt cfg fk false
          match request (oracle (i + 1)) with
          | .error c => .error (.exited c, trace ++ [a2, a3])
          | .ok r3 => .ok (some r3, trace ++ [a2, a3])
        else .ok (some r2, trace ++ [a2])
    else .ok (resp, trace)

/-- Final reporting step of `run` (lines 288-298). -/
def finalStep (resp : Option Resp) : RunOutcome :=
  match resp with
  | none => .pyNoneError
  | some r =>
    if r.success then .wroteSchema r.schemaId r.schema
    else if r.errorCode = "EXPIRE" then .expireMsg
    else .otherMsg r

/-- The attempt-sequencing part of `run` (lines 268-298): product-key phase,
firmware-key phase, final report.  Returns the outcome and the full trace of
attempts issued, in order. -/
def runAttempts (cfg : RunCfg) (product_key firmware_key : Option String)
    (oracle : Nat → RequestEvent) : RunOutcome × List AttemptRec :=
  match pkPhase cfg product_key oracle with
  | .error out => out
  | .ok st =>
    match fkPhase cfg firmware_key oracle st with
    | .error out => out
    | .ok (resp, trace) => (finalStep resp, trace)

/-!
## Token Frame Listener (`receive_token`, lines 203-223)
-/

/-- Big-endian 32-bit word from the first four bytes of a list;
models `struct.unpack(">I", ...)`. -/
def be32 : List Nat → Nat
  | b0 :: b1 :: b2 :: b3 :: _ => ((b0 * 256 + b1) * 256 + b2) * 256 + b3
  | _ => 0

/-- Parse of one datagram (lines 212-216).  `decodeUtf8` models
`bytes.decode()` (fails on invalid UTF-8), `jsonToken` models
`json.loads(s)["token"]` (fails on invalid JSON or a missing field).
A datagram shorter than 16 bytes makes `struct.unpack(">I", msg[12:16])`
raise, hence `none`. -/
def parseTokenFrame (decodeUtf8 : List Nat → Option String)
    (jsonToken : String → Option String) (msg : List Nat) : Option String :=
  if msg.length < 16 then none
  else
    let msglen := be32 (msg.drop 12)
    let payload := (msg.drop 16).take (msglen + 8 - 16)
    match decodeUtf8 payload with
    | none => none
    | some s => jsonToken s

/-- The receive loop (lines 206-223) over the successive datagrams the socket
delivers: a datagram that fails at any parse stage is swallowed by the bare
`except: pass` and the loop continues; the first datagram that parses yields
its token.  An exhausted list models cancellation with no token. -/
def receive_token (decodeUtf8 : List Nat → Option String)
    (jsonToken : String → Option String) : List (List Nat) → Option String
  | [] => none
  | msg :: rest =>
    match parseTokenFrame decodeUtf8 jsonToken msg with
    | some t => some t
    | none => receive_token decodeUtf8 jsonToken rest

end PullSchema

-- sanity checks on the MD5 implementation against RFC 1321 test vectors
example : PullSchema.md5hex "" = "d41d8cd98f00b204e9800998ecf8427e" := by decide
example : PullSchema.md5hex "abc" = "900150983cd24fb0d6963f7d28e17f72" := by decide

open PullSchema

/-!
## Claim theorems
-/

/-- C1: region derivation from the token prefix.  `AZ` maps to `us`, `EU` to
`eu`, and an unknown prefix such as `ZZ` exits with code 4, as claimed — but
the `AY` branch diverges from the claim: source line 255 reads
`region == "cn"`, a comparison whose result is discarded instead of an
assignment, so an `AY` token leaves the region as `"AY"` and the run
continues with it; it neither becomes `cn` nor terminates. -/
theorem C1_region_ay_comparison_bug :
    regionStep "AYxxxxxxxxxxxx" = .ok "AY"
    ∧ regionStep "AYxxxxxxxxxxxx" ≠ .ok "cn"
    ∧ regionStep "AZxxxxxxxxxxxx" = .ok "us"
    ∧ regionStep "EUxxxxxxxxxxxx" = .ok "eu"
    ∧ regionStep "ZZxxxxxxxxxxxx" = .error 4 := by
  have h : regionStep "AYxxxxxxxxxxxx" = .ok "AY" := rfl
  refine ⟨h, ?_, rfl, rfl, rfl⟩
  rw [h]
  intro hc
  injection hc with hc
  exact absurd hc (by decide)

/-- C2 counterexample: at concrete inputs, both PSK derivations return the
FULL `init_id` — for v1 a 50-byte identity whose first byte is the 0x01
version tag, for v2 a 49-byte identity starting with 0x02 — not `initId[1:]`
(which would have 49 resp. 48 bytes and start with the first random byte,
here 0xAA = 170). -/
theorem C2_version_byte_not_stripped :
    ((psk_id_v1 (fun _ _ d => d) [65] [66] (List.replicate 16 170) [1, 2, 3, 4]).2.head?
        = some 1
      ∧ (psk_id_v1 (fun _ _ d => d) [65] [66] (List.replicate 16 170) [1, 2, 3, 4]).2.length
        = 50)
    ∧ ((psk_id_v2 (fun _ => List.replicate 32 7) [9] [66] (List.replicate 16 170)).2.head?
        = some 2
      ∧ (psk_id_v2 (fun _ => List.replicate 32 7) [9] [66] (List.replicate 16 170)).2.length
        = 49) := by
  refine ⟨⟨by decide, by decide⟩, by decide, by decide⟩

/-- C2 amended: both derivations return the identity bytes WITH the leading
version byte.  v1 returns `(secret, 0x01 ‖ nulSub (r ‖ uuidHash ‖ '_' ‖ authHash))`
and v2 returns `(existingSecret, 0x02 ‖ nulSub (r ‖ uuidHash))`; the version
tags survive NUL substitution, and v2 passes the already-held secret through
unchanged. -/
theorem C2_amended_identity_keeps_version_byte
    (enc : List Nat → List Nat → List Nat → List Nat)
    (sha256 : List Nat → List Nat) (authkey uuid rand psk hint : List Nat) :
    (psk_id_v1 enc authkey uuid rand hint).2
        = 1 :: nulSub (rand ++ md5 uuid ++ [95] ++ md5 authkey)
    ∧ (psk_id_v2 sha256 psk uuid rand).2
        = 2 :: nulSub (rand ++ sha256 uuid)
    ∧ (psk_id_v2 sha256 psk uuid rand).1 = psk := by
  refine ⟨?_, ?_, rfl⟩ <;> simp [psk_id_v1, psk_id_v2, nulSub]

/-- C5 counterexample: with a product key AND a firmware key both configured,
a socket-level failure on the very first attempt terminates the whole run
with `sys.exit(3)` after exactly one attempt — the firmware-key attempts of
the fallback sequence are never issued, and nothing is reported to the
orchestrator as a "no response". -/
theorem C5_transport_failure_kills_run :
    runAttempts ⟨0, "tok", "sv", "bv", "cad", "cd", "pv"⟩ (some "pk") (some "fk")
        (fun _ => .sockError)
      = (.exited 3, [attempt ⟨0, "tok", "sv", "bv", "cad", "cd", "pv"⟩ "pk" false]) := by
  decide

/-- C5 amended: any socket-level failure, malformed HTTP framing, JSON parse
failure, or base64/decrypt/unpad failure during one request is caught by the
single `except` handler in `request` and aborts the WHOLE run via
`sys.exit(3)`; no later attempt in the fallback sequence is issued. -/
theorem C5_amended_transport_failure_exits_3
    (cfg : RunCfg) (pk : String) (fk : Option String) (e : RequestEvent)
    (oracle : Nat → RequestEvent) (h0 : oracle 0 = e)
    (hfail : ∀ r, e ≠ RequestEvent.good r) :
    request e = .error 3
    ∧ runAttempts cfg (some pk) fk oracle = (.exited 3, [attempt cfg pk false]) := by
  have hreq : request e = .error 3 := by
    cases e with
    | good r => exact absurd rfl (hfail r)
    | _ => rfl
  refine ⟨hreq, ?_⟩
  simp only [runAttempts, pkPhase, h0, hreq]

/-- Witness for `C5_amended_transport_failure_exits_3` at a concrete run
whose first attempt hits a JSON parse failure. -/
theorem C5_amended_witness :
    request .badJson = .error 3
    ∧ runAttempts ⟨0, "t", "s", "b", "ca", "cd", "pv"⟩ (some "p") (some "f")
        (fun _ => .badJson)
      = (.exited 3, [attempt ⟨0, "t", "s", "b", "ca", "cd", "pv"⟩ "p" false]) :=
  C5_amended_transport_failure_exits_3 ⟨0, "t", "s", "b", "ca", "cd", "pv"⟩ "p"
    (some "f") .badJson (fun _ => .badJson) rfl
    (fun r h => PullSchema.RequestEvent.noConfusion h)

/-- C6 counterexample: an 8-byte hint (shorter than 16 bytes) is NOT rejected:
`hint[-16:]` evaluates to the whole hint, and the v1 derivation silently
proceeds, producing a well-defined secret — here, with the identity CBC
stand-in for AES, `init_id[1:33]`. -/
theorem C6_short_hint_not_rejected :
    ([1, 2, 3, 4, 5, 6, 7, 8] : List Nat).length < 16
    ∧ v1KeyInput [1, 2, 3, 4, 5, 6, 7, 8] = [1, 2, 3, 4, 5, 6, 7, 8]
    ∧ (psk_id_v1 (fun _ _ d => d) [65] [66] (List.replicate 16 9) [1, 2, 3, 4, 5, 6, 7, 8]).1
        = (nulSub (List.replicate 16 9 ++ md5 [66] ++ [95] ++ md5 [65])).take 32 := by
  refine ⟨by decide, by decide, by decide⟩

/-- C6 amended: the v1 key derivation never fails on a short hint.  When the
hint is shorter than 16 bytes, `hint[-16:]` silently yields the entire hint,
so all available hint bytes become the MD5 input for the AES key; only for
hints of length at least 16 are exactly the last 16 bytes used. -/
theorem C6_amended_hint_slice (hint : List Nat) :
    (hint.length < 16 → v1KeyInput hint = hint)
    ∧ (16 ≤ hint.length →
        (v1KeyInput hint).length = 16
        ∧ v1KeyInput hint = hint.drop (hint.length - 16)) := by
  constructor
  · intro h
    simp [v1KeyInput, Nat.sub_eq_zero_of_le (Nat.le_of_lt h)]
  · intro h
    refine ⟨?_, rfl⟩
    simp only [v1KeyInput, List.length_drop]
    omega

/-- Witness for `C6_amended_hint_slice`: a 3-byte hint is used whole, a
17-byte hint contributes exactly its last 16 bytes. -/
theorem C6_amended_witness :
    (v1KeyInput [1, 2, 3] = [1, 2, 3])
    ∧ ((v1KeyInput (List.replicate 17 5)).length = 16
        ∧ v1KeyInput (List.replicate 17 5)
          = (List.replicate 17 5).drop ((List.replicate 17 5).length - 16)) :=
  ⟨(C6_amended_hint_slice [1, 2, 3]).1 (by decide),
   (C6_amended_hint_slice (List.replicate 17 5)).2 (by decide)⟩

/-- C8: with a product key configured, no firmware key, and the first attempt
answering `success = false`, `errorCode = "EXPIRE"`, the run reports the
expire message after exactly one network attempt: `EXPIRE` is not one of the
retryable codes, so no `isFK` flag-flip retry happens, and with no firmware
key there is no fallback. -/
theorem C8_expire_terminates_after_one_attempt
    (cfg : RunCfg) (pk : String) (r : Resp) (oracle : Nat → RequestEvent)
    (hr : oracle 0 = .good r) (hs : r.success = false)
    (he : r.errorCode = "EXPIRE") :
    runAttempts cfg (some pk) none oracle = (.expireMsg, [attempt cfg pk false]) := by
  simp [runAttempts, pkPhase, fkPhase, request, finalStep, hr, hs, he,
    responseCodesToContinueAter]

/-- Witness for `C8_expire_terminates_after_one_attempt` at a concrete run. -/
theorem C8_witness :
    runAttempts ⟨0, "t", "s", "b", "ca", "cd", "pv"⟩ (some "p") none
        (fun _ => .good ⟨false, "EXPIRE", "", ""⟩)
      = (.expireMsg, [attempt ⟨0, "t", "s", "b", "ca", "cd", "pv"⟩ "p" false]) :=
  C8_expire_terminates_after_one_attempt ⟨0, "t", "s", "b", "ca", "cd", "pv"⟩ "p"
    ⟨false, "EXPIRE", "", ""⟩ (fun _ => .good ⟨false, "EXPIRE", "", ""⟩) rfl rfl rfl

/-- C7: with a product key configured and no firmware key, a first attempt
(product key, isFK=false) answering `success=false, errorCode="NOT_EXISTS"`
triggers the flag-flip retry (same key, isFK=true); when that retry succeeds,
the final outcome is its success payload, exactly two attempts were issued,
and both presented the product key.  Moreover the flag-flip retry fires
exactly when the first attempt's error code is one of `FIRMWARE_NOT_MATCH`,
`APP_PRODUCT_UNSUPPORT`, `NOT_EXISTS`. -/
theorem C7_not_exists_flag_flip
    (cfg : RunCfg) (pk : String) (r0 r1 : Resp) (o1 o2 : Nat → RequestEvent)
    (h0 : o1 0 = .good r0) (hs0 : r0.success = false)
    (he0 : r0.errorCode = "NOT_EXISTS")
    (h1 : o1 1 = .good r1) (hs1 : r1.success = true) :
    (runAttempts cfg (some pk) none o1
        = (.wroteSchema r1.schemaId r1.schema,
           [attempt cfg pk false, attempt cfg pk true]))
    ∧ (∀ r, r.success = false → o2 0 = .good r →
        ((runAttempts cfg (some pk) none o2).2.length = 2
          ↔ r.errorCode ∈ responseCodesToContinueAter)) := by
  constructor
  · simp [runAttempts, pkPhase, fkPhase, request, finalStep, h0, h1, hs0, hs1,
      he0, responseCodesToContinueAter]
  · intro r hrs ho
    by_cases hc : r.errorCode ∈ responseCodesToContinueAter
    · cases hreq : o2 1 <;>
        simp [runAttempts, pkPhase, fkPhase, request, finalStep, ho, hrs, hc, hreq]
    · simp [runAttempts, pkPhase, fkPhase, request, finalStep, ho, hrs, hc]

/-- Witness for `C7_not_exists_flag_flip` at a concrete run: first attempt
answers NOT_EXISTS, the flag-flip retry answers success with schemaId "123". -/
theorem C7_witness :
    (runAttempts ⟨0, "t", "s", "b", "ca", "cd", "pv"⟩ (some "p") none
        (fun i => if i = 0 then .good ⟨false, "NOT_EXISTS", "", ""⟩
                  else .good ⟨true, "", "123", "sch"⟩)
      = (.wroteSchema "123" "sch",
         [attempt ⟨0, "t", "s", "b", "ca", "cd", "pv"⟩ "p" false,
          attempt ⟨0, "t", "s", "b", "ca", "cd", "pv"⟩ "p" true]))
    ∧ ((runAttempts ⟨0, "t", "s", "b", "ca", "cd", "pv"⟩ (some "p") none
          (fun _ => RequestEvent.good ⟨false, "NOT_EXISTS", "", ""⟩)).2.length = 2
        ↔ "NOT_EXISTS" ∈ responseCodesToContinueAter) :=
  ⟨(C7_not_exists_flag_flip ⟨0, "t", "s", "b", "ca", "cd", "pv"⟩ "p"
      ⟨false, "NOT_EXISTS", "", ""⟩ ⟨true, "", "123", "sch"⟩
      (fun i => if i = 0 then .good ⟨false, "NOT_EXISTS", "", ""⟩
                else .good ⟨true, "", "123", "sch"⟩)
      (fun _ => .good ⟨false, "NOT_EXISTS", "", ""⟩) rfl rfl rfl rfl rfl).1,
   (C7_not_exists_flag_flip ⟨0, "t", "s", "b", "ca", "cd", "pv"⟩ "p"
      ⟨false, "NOT_EXISTS", "", ""⟩ ⟨true, "", "123", "sch"⟩
      (fun i => if i = 0 then .good ⟨false, "NOT_EXISTS", "", ""⟩
                else .good ⟨true, "", "123", "sch"⟩)
      (fun _ => .good ⟨false, "NOT_EXISTS", "", ""⟩) rfl rfl rfl rfl rfl).2
     ⟨false, "NOT_EXISTS", "", ""⟩ rfl rfl⟩

/-- C9: for a datagram of at least 16 bytes, the listener reads bytes 12-15 as
a big-endian 32-bit length `L` and feeds bytes 16 through `L+8` (exclusive)
to the UTF-8 decoder, the JSON parser and the `token` field lookup; a shorter
datagram fails the `struct.unpack`.  A datagram failing at any stage is
silently discarded — the receive loop continues with the next datagram — and
a successful parse yields its token. -/
theorem C9_token_frame_listener
    (dec : List Nat → Option String) (jt : String → Option String)
    (msg : List Nat) (rest : List (List Nat)) :
    (16 ≤ msg.length →
      parseTokenFrame dec jt msg
        = (dec ((msg.take (be32 (msg.drop 12) + 8)).drop 16)).bind jt)
    ∧ (msg.length < 16 → parseTokenFrame dec jt msg = none)
    ∧ (parseTokenFrame dec jt msg = none →
        receive_token dec jt (msg :: rest) = receive_token dec jt rest)
    ∧ (∀ t, parseTokenFrame dec jt msg = some t →
        receive_token dec jt (msg :: rest) = some t) := by
  refine ⟨?_, ?_, ?_, ?_⟩
  · intro h
    have hpay : (msg.drop 16).take (be32 (msg.drop 12) + 8 - 16)
        = (msg.take (be32 (msg.drop 12) + 8)).drop 16 := by
      by_cases h16 : 16 ≤ be32 (msg.drop 12) + 8
      · have harith : 16 + (be32 (msg.drop 12) + 8 - 16) = be32 (msg.drop 12) + 8 := by
          omega
        rw [List.take_drop, harith]
      · have h0 : be32 (msg.drop 12) + 8 - 16 = 0 := by omega
        rw [h0, List.take_zero]
        symm
        rw [List.drop_eq_nil_iff]
        calc (msg.take (be32 (msg.drop 12) + 8)).length
            ≤ be32 (msg.drop 12) + 8 := by simp
          _ ≤ 16 := by omega
    simp only [parseTokenFrame, if_neg (by omega : ¬ msg.length < 16), hpay]
    cases dec ((msg.take (be32 (msg.drop 12) + 8)).drop 16) <;> rfl
  · intro h
    simp only [parseTokenFrame, if_pos h]
  · intro h
    simp only [receive_token, h]
  · intro t h
    simp only [receive_token, h]

/-- Witness for `C9_token_frame_listener` on concrete datagrams: a 16-byte
datagram is decoded through the frame arithmetic and yields its token, a
3-byte datagram fails the length read and is discarded without stopping the
loop. -/
theorem C9_witness :
    (parseTokenFrame (fun _ => some "s") (fun _ => some "T") (List.replicate 16 0)
        = ((fun _ : List Nat => some "s")
            (((List.replicate 16 0).take
                (be32 ((List.replicate 16 0).drop 12) + 8)).drop 16)).bind
          (fun _ => some "T"))
    ∧ (parseTokenFrame (fun _ => some "s") (fun _ => some "T") [1, 2, 3] = none)
    ∧ (receive_token (fun _ => some "s") (fun _ => some "T")
        ([1, 2, 3] :: [List.replicate 16 0])
        = receive_token (fun _ => some "s") (fun _ => some "T") [List.replicate 16 0])
    ∧ (receive_token (fun _ => some "s") (fun _ => some "T")
        (List.replicate 16 0 :: []) = some "T") :=
  ⟨(C9_token_frame_listener (fun _ => some "s") (fun _ => some "T")
      (List.replicate 16 0) []).1 (by decide),
   (C9_token_frame_listener (fun _ => some "s") (fun _ => some "T")
      [1, 2, 3] []).2.1 (by decide),
   (C9_token_frame_listener (fun _ => some "s") (fun _ => some "T")
      [1, 2, 3] [List.replicate 16 0]).2.2.1 rfl,
   (C9_token_frame_listener (fun _ => some "s") (fun _ => some "T")
      (List.replicate 16 0) []).2.2.2 "T" rfl⟩


/-- Helper for C10: every attempt recorded by the product-key phase is an
`attempt cfg k b` for some key `k` and flag `b`. -/
theorem pkPhase_trace_attempts (cfg : RunCfg) (pk : Option String)
    (oracle : Nat → RequestEvent) (a : AttemptRec) :
    (∀ out, pkPhase cfg pk oracle = .error out → a ∈ out.2 →
      ∃ k b, a = attempt cfg k b)
    ∧ (∀ st, pkPhase cfg pk oracle = .ok st → a ∈ st.2.1 →
      ∃ k b, a = attempt cfg k b) := by
  rcases pk with _ | pk
  · refine ⟨fun out hout _ => ?_, fun st hst hmem => ?_⟩
    · simp [pkPhase] at hout
    · simp only [pkPhase] at hst
      injection hst with h
      rw [← h] at hmem
      simp at hmem
  · cases hreq : request (oracle 0) with
    | error c =>
      refine ⟨fun out hout hmem => ?_, fun st hst _ => ?_⟩
      · simp only [pkPhase, hreq] at hout
        injection hout with h
        rw [← h] at hmem
        simp only [List.mem_singleton] at hmem
        exact ⟨pk, false, hmem⟩
      · simp [pkPhase, hreq] at hst
    | ok r0 =>
      by_cases hc : r0.success = false ∧ r0.errorCode ∈ responseCodesToContinueAter
      · cases hreq1 : request (oracle 1) with
        | error c =>
          refine ⟨fun out hout hmem => ?_, fun st hst _ => ?_⟩
          · simp only [pkPhase, hreq, if_pos hc, hreq1] at hout
            injection hout with h
            rw [← h] at hmem
            rcases List.mem_cons.mp hmem with rfl | hmem
            · exact ⟨pk, false, rfl⟩
            · simp only [List.mem_singleton] at hmem
              exact ⟨pk, true, hmem⟩
          · simp [pkPhase, hreq, if_pos hc, hreq1] at hst
        | ok r1 =>
          refine ⟨fun out hout _ => ?_, fun st hst hmem => ?_⟩
          · simp [pkPhase, hreq, if_pos hc, hreq1] at hout
          · simp only [pkPhase, hreq, if_pos hc, hreq1] at hst
            injection hst with h
            rw [← h] at hmem
            rcases List.mem_cons.mp hmem with rfl | hmem
            · exact ⟨pk, false, rfl⟩
            · simp only [List.mem_singleton] at hmem
              exact ⟨pk, true, hmem⟩
      · refine ⟨fun out hout _ => ?_, fun st hst hmem => ?_⟩
        · simp [pkPhase, hreq, if_neg hc] at hout
        · simp only [pkPhase, hreq, if_neg hc] at hst
          injection hst with h
          rw [← h] at hmem
          simp only [List.mem_singleton] at hmem
          exact ⟨pk, false, hmem⟩

/-- Helper for C10: the firmware-key phase only ever appends further
`attempt cfg k b` records to a trace whose members already have that form. -/
theorem fkPhase_trace_attempts (cfg : RunCfg) (fk : Option String)
    (oracle : Nat → RequestEvent) (st : Option Resp × List AttemptRec × Nat)
    (a : AttemptRec)
    (hst : ∀ x ∈ st.2.1, ∃ k b, x = attempt cfg k b) :
    (∀ out, fkPhase cfg fk oracle st = .error out → a ∈ out.2 →
      ∃ k b, a = attempt cfg k b)
    ∧ (∀ res, fkPhase cfg fk oracle st = .ok res → a ∈ res.2 →
      ∃ k b, a = attempt cfg k b) := by
  obtain ⟨resp, trace, i⟩ := st
  simp only at hst
  rcases fk with _ | fk
  · refine ⟨fun out hout _ => ?_, fun res hres hmem => ?_⟩
    · simp [fkPhase] at hout
    · simp only [fkPhase] at hres
      injection hres with h
      rw [← h] at hmem
      exact hst a hmem
  · have attempts_branch :
      ∀ h2 h3 : RequestEvent,
        (∀ out, (match request h2 with
          | .error c => Except.error (RunOutcome.exited c, trace ++ [attempt cfg fk true])
          | .ok r2 =>
            if r2.success = false ∧ r2.errorCode ∈ responseCodesToContinueAter then
              match request h3 with
              | .error c =>
                Except.error (RunOutcome.exited c,
                  trace ++ [attempt cfg fk true, attempt cfg fk false])
              | .ok r3 =>
                Except.ok (some r3, trace ++ [attempt cfg fk true, attempt cfg fk false])
            else Except.ok (some r2, trace ++ [attempt cfg fk true])) = .error out →
          a ∈ out.2 → ∃ k b, a = attempt cfg k b)
        ∧ (∀ res, (match request h2 with
          | .error c => Except.error (RunOutcome.exited c, trace ++ [attempt cfg fk true])
          | .ok r2 =>
            if r2.success = false ∧ r2.errorCode ∈ responseCodesToContinueAter then
              match request h3 with
              | .error c =>
                Except.error (RunOutcome.exited c,
                  trace ++ [attempt cfg fk true, attempt cfg fk false])
              | .ok r3 =>
                Except.ok (some r3, trace ++ [attempt cfg fk true, attempt cfg fk false])
            else Except.ok (some r2, trace ++ [attempt cfg fk true])) = .ok res →
          a ∈ res.2 → ∃ k b, a = attempt cfg k b) := by
      intro h2 h3
      have resolve : ∀ l : List AttemptRec,
          (∀ x ∈ l, ∃ k b, x = attempt cfg k b) → a ∈ l → ∃ k b, a = attempt cfg k b :=
        fun l hl hm => hl a hm
      have htail1 : ∀ x ∈ trace ++ [attempt cfg fk true], ∃ k b, x = attempt cfg k b := by
        intro x hx
        rcases List.mem_append.mp hx with hx | hx
        · exact hst x hx
        · simp only [List.mem_singleton] at hx
          exact ⟨fk, true, hx⟩
      have htail2 : ∀ x ∈ trace ++ [attempt cfg fk true, attempt cfg fk false],
          ∃ k b, x = attempt cfg k b := by
        intro x hx
        rcases List.mem_append.mp hx with hx | hx
        · exact hst x hx
        · rcases List.mem_cons.mp hx with rfl | hx
          · exact ⟨fk, true, rfl⟩
          · simp only [List.mem_singleton] at hx
            exact ⟨fk, false, hx⟩
      cases hreq : request h2 with
      | error c =>
        refine ⟨fun out hout hmem => ?_, fun res hres _ => ?_⟩
        · injection hout with h
          rw [← h] at hmem
          exact resolve _ htail1 hmem
        · exact absurd hres (by simp)
      | ok r2 =>
        by_cases hc : r2.success = false ∧ r2.errorCode ∈ responseCodesToContinueAter
        · cases hreq1 : request h3 with
          | error c =>
            refine ⟨fun out hout hmem => ?_, fun res hres _ => ?_⟩
            · simp only [if_pos hc] at hout
              injection hout with h
              rw [← h] at hmem
              exact resolve _ htail2 hmem
            · simp only [if_pos hc] at hres
              exact absurd hres (by simp)
          | ok r3 =>
            refine ⟨fun out hout _ => ?_, fun res hres hmem => ?_⟩
            · simp only [if_pos hc] at hout
              exact absurd hout (by simp)
            · simp only [if_pos hc] at hres
              injection hres with h
              rw [← h] at hmem
              exact resolve _ htail2 hmem
        · refine ⟨fun out hout _ => ?_, fun res hres hmem => ?_⟩
          · simp only [if_neg hc] at hout
            exact absurd hout (by simp)
          · simp only [if_neg hc] at hres
            injection hres with h
            rw [← h] at hmem
            exact resolve _ htail1 hmem
    rcases resp with _ | r
    · refine ⟨fun out hout hmem => ?_, fun res hres hmem => ?_⟩
      · have hred := (attempts_branch (oracle i) (oracle (i + 1))).1 out ?_ hmem
        · exact hred
        · simpa only [fkPhase] using hout
      · have hred := (attempts_branch (oracle i) (oracle (i + 1))).2 res ?_ hmem
        · exact hred
        · simpa only [fkPhase] using hres
    · cases hb : !r.success && !(r.errorCode == "EXPIRE") with
      | false =>
        refine ⟨fun out hout _ => ?_, fun res hres hmem => ?_⟩
        · simp [fkPhase, hb] at hout
        · simp only [fkPhase, hb] at hres
          injection hres with h
          rw [← h] at hmem
          exact hst a hmem
      | true =>
        refine ⟨fun out hout hmem => ?_, fun res hres hmem => ?_⟩
        · have hred := (attempts_branch (oracle i) (oracle (i + 1))).1 out ?_ hmem
          · exact hred
          · simpa only [fkPhase, hb] using hout
        · have hred := (attempts_branch (oracle i) (oracle (i + 1))).2 res ?_ hmem
          · exact hred
          · simpa only [fkPhase, hb] using hres

/-- C10: every request body of every attempt of any run — the firmware-key
attempts included — carries exactly the nine fields `token`, `productKey`,
`softVer`, `protocolVer`, `baselineVer`, `options`, `cadVer`, `cdVer`, `t`,
in that order; the presented key (product or firmware) always sits under the
single field name `productKey`, no field named `firmwareKey` ever exists, and
only the `isFK` flag inside the `options` fragment distinguishes the key
type. -/
theorem C10_product_key_field_only
    (cfg : RunCfg) (pk fk : Option String) (oracle : Nat → RequestEvent)
    (a : AttemptRec) (ha : a ∈ (runAttempts cfg pk fk oracle).2) :
    a.data.map Prod.fst
      = ["token", "productKey", "softVer", "protocolVer", "baselineVer",
         "options", "cadVer", "cdVer", "t"]
    ∧ "firmwareKey" ∉ a.data.map Prod.fst
    ∧ ("productKey", a.key) ∈ a.data
    ∧ ("options", "\x7b\"isFK\":" ++ (if a.is_fk then "true" else "false") ++ "\x7d")
        ∈ a.data := by
  obtain ⟨k, b, rfl⟩ : ∃ k b, a = attempt cfg k b := by
    unfold runAttempts at ha
    split at ha
    · rename_i out hpk
      exact (pkPhase_trace_attempts cfg pk oracle a).1 out hpk ha
    · rename_i st hpk
      have hst : ∀ x ∈ st.2.1, ∃ kk bb, x = attempt cfg kk bb := fun x hx =>
        (pkPhase_trace_attempts cfg pk oracle x).2 st hpk hx
      split at ha
      · rename_i out hfk
        exact (fkPhase_trace_attempts cfg fk oracle st a hst).1 out hfk ha
      · rename_i resp2 trace2 hfk
        exact (fkPhase_trace_attempts cfg fk oracle st a hst).2 (resp2, trace2) hfk ha
  cases b <;> simp [attempt, build_data]

/-- Witness for `C10_product_key_field_only`: the single attempt of a
concrete successful run carries exactly the nine fields. -/
theorem C10_witness :
    (attempt ⟨7, "t", "s", "b", "ca", "cd", "pv"⟩ "p" false).data.map Prod.fst
      = ["token", "productKey", "softVer", "protocolVer", "baselineVer",
         "options", "cadVer", "cdVer", "t"]
    ∧ "firmwareKey" ∉ (attempt ⟨7, "t", "s", "b", "ca", "cd", "pv"⟩ "p" false).data.map
        Prod.fst
    ∧ ("productKey", (attempt ⟨7, "t", "s", "b", "ca", "cd", "pv"⟩ "p" false).key)
        ∈ (attempt ⟨7, "t", "s", "b", "ca", "cd", "pv"⟩ "p" false).data
    ∧ ("options", "\x7b\"isFK\":"
          ++ (if (attempt ⟨7, "t", "s", "b", "ca", "cd", "pv"⟩ "p" false).is_fk
              then "true" else "false") ++ "\x7d")
        ∈ (attempt ⟨7, "t", "s", "b", "ca", "cd", "pv"⟩ "p" false).data :=
  C10_product_key_field_only ⟨7, "t", "s", "b", "ca", "cd", "pv"⟩ (some "p") none
    (fun _ => .good ⟨true, "", "id", "sch"⟩)
    (attempt ⟨7, "t", "s", "b", "ca", "cd", "pv"⟩ "p" false) (by decide)

/-- Helper for C4: a nibble's uppercase hex digit decodes back to itself. -/
theorem charToNibble_hexDigitU (n : Nat) (h : n < 16) :
    charToNibble (hexDigitU n) = some n := by
  interval_cases n <;> decide

/-- Helper for C4: hex-decoding inverts uppercase hex encoding on byte lists. -/
theorem hexDecodeL_hexUpper (bs : List Nat) (h : ∀ b ∈ bs, b < 256) :
    hexDecodeL (hexUpper bs) = some bs := by
  induction bs with
  | nil => rfl
  | cons b tl ih =>
    have hb : b < 256 := h b (List.mem_cons_self b tl)
    have htl : hexDecodeL (hexUpper tl) = some tl :=
      ih fun x hx => h x (List.mem_cons_of_mem b hx)
    have h1 : b / 16 < 16 := by omega
    have h2 : b % 16 < 16 := by omega
    show hexDecodeL (hexDigitU (b / 16) :: hexDigitU (b % 16) :: hexUpper tl)
        = some (b :: tl)
    simp only [hexDecodeL, charToNibble_hexDigitU _ h1, charToNibble_hexDigitU _ h2, htl]
    have hb16 : b / 16 * 16 + b % 16 = b := by omega
    rw [hb16]

/-- Helper for C4: unpadding a buffer that ends in a valid PKCS#7 pad block
recovers the original data. -/
theorem pkcs7unpad_append_replicate (data : List Nat) (n : Nat)
    (h1 : 1 ≤ n) (h2 : n ≤ 16) :
    pkcs7unpad (data ++ List.replicate n n) = some data := by
  have hlen : (data ++ List.replicate n n).length = data.length + n := by simp
  have hlast : (data ++ List.replicate n n).getLast? = some n := by
    rw [List.getLast?_append, List.getLast?_replicate, if_neg (by omega)]
    rfl
  have hcond : ¬ (n = 0 ∨ 16 < n ∨ (data ++ List.replicate n n).length < n) := by
    simp only [hlen]
    omega
  have hsub : (data ++ List.replicate n n).length - n = data.length := by
    simp only [hlen]
    omega
  have hdrop : (data ++ List.replicate n n).drop
      ((data ++ List.replicate n n).length - n) = List.replicate n n := by
    rw [hsub]
    exact List.drop_left data (List.replicate n n)
  unfold pkcs7unpad
  rw [hlast]
  simp only [if_neg hcond, if_pos hdrop, hsub, List.take_left]
  rw [if_pos (List.drop_left data (List.replicate n n))]

/-- Helper for C4: PKCS#7 unpadding inverts PKCS#7 padding. -/
theorem pkcs7unpad_pkcs7pad (data : List Nat) :
    pkcs7unpad (pkcs7pad data) = some data := by
  have h1 : 1 ≤ 16 - data.length % 16 := by omega
  have h2 : 16 - data.length % 16 ≤ 16 := by omega
  exact pkcs7unpad_append_replicate data _ h1 h2

/-- C4: the encrypt-then-decrypt round trip.  For any compact JSON body bytes
and any 32-character authKey, hex-decoding the portion after `data=` of the
encrypted request body and decrypting it (AES-128-ECB keyed on the first 16
bytes of the authKey, then PKCS#7-unpadding) yields exactly the original body
bytes.  The AES block cipher is the external `Cryptodome` primitive: the
hypotheses state that its decrypt inverts its encrypt on this padded buffer
and that it produces bytes. -/
theorem C4_encrypt_decrypt_roundtrip
    (aesEnc aesDec : List Nat → List Nat → List Nat)
    (authkey jsonBytes : List Nat)
    (hak : authkey.length = 32)
    (hbytes : ∀ b ∈ aesEnc (authkey.take 16) (pkcs7pad jsonBytes), b < 256)
    (hinv : aesDec (authkey.take 16) (aesEnc (authkey.take 16) (pkcs7pad jsonBytes))
        = pkcs7pad jsonBytes) :
    (hexDecodeL ((encrypt_data aesEnc authkey jsonBytes).data.drop 5)).bind
        (decrypt_data aesDec authkey)
      = some jsonBytes := by
  have hdata : (encrypt_data aesEnc authkey jsonBytes).data
      = "data=".data ++ hexUpper (aesEnc (authkey.take 16) (pkcs7pad jsonBytes)) := rfl
  rw [hdata, List.drop_left' (by rfl : ("data=".data).length = 5),
    hexDecodeL_hexUpper _ hbytes]
  show decrypt_data aesDec authkey (aesEnc (authkey.take 16) (pkcs7pad jsonBytes))
      = some jsonBytes
  unfold decrypt_data
  rw [hinv]
  exact pkcs7unpad_pkcs7pad jsonBytes

/-- Witness for `C4_encrypt_decrypt_roundtrip` with the identity stand-in for
the AES primitive, a 32-byte authKey, and the body bytes of the empty JSON
object. -/
theorem C4_witness :
    (hexDecodeL ((encrypt_data (fun _ d => d) (List.replicate 32 65)
        [123, 125]).data.drop 5)).bind
        (decrypt_data (fun _ d => d) (List.replicate 32 65))
      = some [123, 125] :=
  C4_encrypt_decrypt_roundtrip (fun _ d => d) (fun _ d => d) (List.replicate 32 65)
    [123, 125] (by decide) (by decide) rfl

/-- Helper for C3: Python tuple comparison on string pairs is total. -/
theorem pairLe_total (a b : String × String) : pairLe a b || pairLe b a := by
  simp only [pairLe, Bool.or_eq_true, decide_eq_true_eq]
  rcases lt_trichotomy a.1 b.1 with h | h | h
  · exact Or.inl (Or.inl h)
  · rcases le_total a.2 b.2 with h2 | h2
    · exact Or.inl (Or.inr ⟨h, h2⟩)
    · exact Or.inr (Or.inr ⟨h.symm, h2⟩)
  · exact Or.inr (Or.inl h)

/-- Helper for C3: Python tuple comparison on string pairs is transitive. -/
theorem pairLe_trans (a b c : String × String) :
    pairLe a b → pairLe b c → pairLe a c := by
  simp only [pairLe, decide_eq_true_eq]
  rintro (h1 | ⟨h1, h1v⟩) (h2 | ⟨h2, h2v⟩)
  · exact Or.inl (lt_trans h1 h2)
  · exact Or.inl (by rw [← h2]; exact h1)
  · exact Or.inl (by rw [h1]; exact h2)
  · exact Or.inr ⟨h1.trans h2, le_trans h1v h2v⟩

/-- C3: the signed query string.  For every mapping of query parameters
(distinct string keys), `build_querystring` sorts the pairs strictly
ascending by key, joins them as `key=value` with `&`, signs with the
lowercase hexadecimal MD5 digest of the joined string with every `&`
replaced by `||` and `||authKey` appended, and appends `&sign=digest` (the
whole query string being prefixed with `?`). -/
theorem C3_querystring_signing (authkey : String) (params : List (String × String))
    (hnd : (params.map Prod.fst).Nodup) :
    ∃ sp : List (String × String),
      sp.Perm params
      ∧ (sp.map Prod.fst).Pairwise (· < ·)
      ∧ build_querystring authkey params
          = "?" ++ (joinAmp sp ++ "&sign="
              ++ md5hex (replaceAmp (joinAmp sp) ++ "||" ++ authkey)) := by
  refine ⟨params.mergeSort pairLe, List.mergeSort_perm params pairLe, ?_, rfl⟩
  have hsorted : (params.mergeSort pairLe).Pairwise (fun a b => pairLe a b) :=
    List.sorted_mergeSort pairLe_trans pairLe_total params
  have hperm : (params.mergeSort pairLe).Perm params := List.mergeSort_perm params pairLe
  have hnd2 : ((params.mergeSort pairLe).map Prod.fst).Nodup :=
    ((hperm.map Prod.fst).nodup_iff).mpr hnd
  have hndp : (params.mergeSort pairLe).Pairwise (fun a b => a.1 ≠ b.1) :=
    List.pairwise_map.mp hnd2
  rw [List.pairwise_map]
  refine (hsorted.and hndp).imp ?_
  intro a b hab
  obtain ⟨hle, hne⟩ := hab
  rcases (decide_eq_true_eq.mp hle : a.1 < b.1 ∨ (a.1 = b.1 ∧ a.2 ≤ b.2)) with h | ⟨h, _⟩
  · exact h
  · exact absurd h hne

/-- Witness for `C3_querystring_signing` at a concrete two-parameter mapping
with distinct keys. -/
theorem C3_witness :
    ∃ sp : List (String × String),
      sp.Perm [("b", "2"), ("a", "1")]
      ∧ (sp.map Prod.fst).Pairwise (· < ·)
      ∧ build_querystring "k" [("b", "2"), ("a", "1")]
          = "?" ++ (joinAmp sp ++ "&sign="
              ++ md5hex (replaceAmp (joinAmp sp) ++ "||" ++ "k")) :=
  C3_querystring_signing "k" [("b", "2"), ("a", "1")] (by decide)
